import Mathlib

/-!
# Hopper — shallow embedding and verification

A shallow embedding of the document-merging pipeline of the Hopper
repository (parsers, cleaning engine, merge engine), translated from the
Python sources:

* `src/cleaners/data_cleaner.py`   — `DataCleaner`, `CleaningConfig`, `CleaningReport`
* `src/mergers/excel_merger.py`    — `ExcelMerger`
* `src/parsers/parser_factory.py`  — `ParserFactory.create_parser`
* `src/parsers/excel_parser.py`    — `ExcelParser.parse` / `extract_metrics`
* `src/parsers/word_parser.py`     — `WordParser.extract_tables`

Pandas DataFrames are modelled as lists of named, dtype-tagged columns of
cells; floats are modelled as exact rationals (the thresholds `0.8` and
`0.5` compared against ratios `k/n` behave identically to the binary
floats for any realistic table size); Python dicts are modelled as
insertion-ordered association lists.
-/

set_option autoImplicit false

namespace Hopper

/-! ## Cells and dtypes (model of pandas scalars) -/

/-- A pandas scalar cell: missing (`NaN`/`NaT`), a string, a numeric value,
a datetime (epoch-style integer), or a boolean. -/
inductive Cell where
  | na
  | str (s : String)
  | num (q : ℚ)
  | dt (t : Int)
  | bool (b : Bool)
  deriving DecidableEq

/-- Dtype tags as pandas reports them. -/
inductive Dtype where
  | object
  | int64
  | float64
  | datetime64
  | boolDtype
  deriving DecidableEq

def Dtype.isNumeric : Dtype → Bool
  | .int64 => true
  | .float64 => true
  | _ => false

/-- `str(dtype)` as pandas renders it. -/
def Dtype.toStr : Dtype → String
  | .object => "object"
  | .int64 => "int64"
  | .float64 => "float64"
  | .datetime64 => "datetime64[ns]"
  | .boolDtype => "bool"

def Cell.isna : Cell → Bool
  | .na => true
  | _ => false

/-! ## DataFrames -/

/-- One named, dtype-tagged column of cells. -/
structure Col where
  name : String
  dtype : Dtype
  cells : List Cell
  deriving DecidableEq

/-- A DataFrame: an ordered list of columns (all of equal length in any
frame produced by the sources). -/
structure DF where
  cols : List Col
  deriving DecidableEq

def DF.names (df : DF) : List String := df.cols.map (·.name)

/-- `len(df)`: the number of rows (pandas takes the common column length;
an empty frame has zero rows). -/
def DF.nrows (df : DF) : Nat := ((df.cols.head?).map (·.cells.length)).getD 0

def DF.ncols (df : DF) : Nat := df.cols.length

/-- `df.shape`. -/
def DF.shape (df : DF) : Nat × Nat := (df.nrows, df.ncols)

/-- `df[c]` for an existing column. -/
def DF.getCol (df : DF) (c : String) : Option Col :=
  df.cols.find? (fun col => col.name == c)

/-- `df[c] = cells` — pandas replaces an existing column in place, keeping
its position, and appends a brand-new column at the end. -/
def DF.setCol (df : DF) (c : String) (d : Dtype) (cells : List Cell) : DF :=
  if df.cols.any (fun col => col.name == c) then
    ⟨df.cols.map (fun col => if col.name == c then ⟨col.name, d, cells⟩ else col)⟩
  else ⟨df.cols ++ [⟨c, d, cells⟩]⟩

/-- Row `i` as the list of its cells, one per column. -/
def DF.rowAt (df : DF) (i : Nat) : List Cell :=
  df.cols.map (fun c => c.cells.getD i .na)

/-- Keep exactly the rows whose index satisfies `keep` (row filtering as
`drop_duplicates` / `dropna` do it). -/
def DF.filterRows (df : DF) (keep : Nat → Bool) : DF :=
  ⟨df.cols.map (fun c =>
    ⟨c.name, c.dtype, (c.cells.enum.filter (fun p => keep p.1)).map (·.2)⟩)⟩

def Col.nullCount (c : Col) : Nat := c.cells.countP (·.isna)

/-- Null count of a column of the frame (0 for an absent column). -/
def DF.colNullCount (df : DF) (c : String) : Nat :=
  match df.getCol c with
  | some col => col.nullCount
  | none => 0

/-- The non-missing numeric values of a column (what pandas statistics
skip NaN over). -/
def Col.vals (c : Col) : List ℚ :=
  c.cells.filterMap (fun x => match x with | .num q => some q | _ => none)

/-! ## Insertion-ordered dicts (Python `dict` model) -/

/-- Dict lookup. -/
def lookupA {V : Type} : List (String × V) → String → Option V
  | [], _ => none
  | p :: rest, k => if p.1 = k then some p.2 else lookupA rest k

/-- Dict assignment `m[k] = v`: replaces the value of an existing key in
place, appends a new key at the end. -/
def updAssoc {V : Type} (m : List (String × V)) (k : String) (v : V) : List (String × V) :=
  if m.any (fun p => p.1 == k) then
    m.map (fun p => if p.1 = k then (p.1, v) else p)
  else m ++ [(k, v)]

/-! ## Scalar coercions (models of `pd.to_numeric` / `pd.to_datetime`) -/

def digitsToNat (cs : List Char) : Nat :=
  cs.foldl (fun n c => 10 * n + (c.toNat - 48)) 0

/-- `str.lower()` (ASCII model). -/
def lowerStr (s : String) : String := String.mk (s.toList.map Char.toLower)

/-- `str.upper()` (ASCII model). -/
def upperStr (s : String) : String := String.mk (s.toList.map Char.toUpper)

/-- Decides `num / den > t` for a natural count `num` and a positive
natural total `den`, by exact cross-multiplication (for positive `den`
this is precisely the float comparison `num/den > t` of the source,
since the ratios involved are exactly representable comparisons). -/
def ratioGtQ (num den : Nat) (t : ℚ) : Bool :=
  decide ((num : Int) * (t.den : Int) > t.num * (den : Int))

def stripWSChars (cs : List Char) : List Char :=
  ((cs.dropWhile Char.isWhitespace).reverse.dropWhile Char.isWhitespace).reverse

/-- Model of numeric string parsing as `pd.to_numeric` accepts it:
optional surrounding whitespace, optional sign, digits with at most one
decimal point (scientific notation is outside the model's scope). -/
def parseNumQ (s : String) : Option ℚ :=
  let cs := stripWSChars s.toList
  let signAndDigits : ℚ × List Char :=
    match cs with
    | '-' :: rest => (-1, rest)
    | '+' :: rest => (1, rest)
    | _ => (1, cs)
  let sign := signAndDigits.1
  let body := signAndDigits.2
  let intPart := body.takeWhile (fun c => c ≠ '.')
  let rest := body.drop intPart.length
  if intPart.all (·.isDigit) then
    match rest with
    | [] => if intPart.isEmpty then none else some (sign * (digitsToNat intPart : ℚ))
    | '.' :: frac =>
      if frac.all (·.isDigit) && !(intPart.isEmpty && frac.isEmpty) then
        some (sign * ((digitsToNat intPart : ℚ) + (digitsToNat frac : ℚ) / ((10 : ℚ) ^ frac.length)))
      else none
    | _ => none
  else none

/-- Model of date string parsing (`pd.to_datetime`): ISO `YYYY-MM-DD`
dates; the produced timestamp is an abstract encoding of the date. -/
def parseDateStr (s : String) : Option Int :=
  match s.toList with
  | [y1, y2, y3, y4, '-', m1, m2, '-', d1, d2] =>
    if [y1, y2, y3, y4, m1, m2, d1, d2].all (·.isDigit) then
      let m := digitsToNat [m1, m2]
      let d := digitsToNat [d1, d2]
      if 1 ≤ m && m ≤ 12 && 1 ≤ d && d ≤ 31 then
        some ((digitsToNat [y1, y2, y3, y4] * 10000 + m * 100 + d : Nat) : Int)
      else none
    else none
  | _ => none

/-- One cell under `pd.to_numeric(..., errors='coerce')`. -/
def toNumericCell : Cell → Cell
  | .na => .na
  | .num q => .num q
  | .str s => match parseNumQ s with | some q => .num q | none => .na
  | .dt _ => .na
  | .bool b => .num (if b then 1 else 0)

/-- One cell under `pd.to_datetime(..., errors='coerce')`: numeric values
are interpreted as epoch timestamps (nanosecond unit) and convert
successfully; strings must parse as dates. -/
def toDatetimeCell : Cell → Cell
  | .na => .na
  | .num q => .dt q.floor
  | .dt t => .dt t
  | .str s => match parseDateStr s with | some t => .dt t | none => .na
  | .bool _ => .na

/-! ## Null-filling helpers (models of the pandas `Series` methods) -/

/-- `fillna(v)` on the cell list (`v = .na` models filling with NaN,
which leaves the column unchanged). -/
def fillCells (v : Cell) (cs : List Cell) : List Cell :=
  cs.map (fun x => if x.isna then v else x)

/-- `Series.mean()` (NaN skipped); `.na` when no value is present. -/
def meanCell (c : Col) : Cell :=
  match c.vals with
  | [] => .na
  | vs => .num (vs.sum / (vs.length : ℚ))

/-- `Series.median()` (NaN skipped, linear middle). -/
def medianCell (c : Col) : Cell :=
  match c.vals.mergeSort (fun a b => decide (a ≤ b)) with
  | [] => .na
  | vs =>
    let n := vs.length
    if n % 2 = 1 then .num (vs.getD (n / 2) 0)
    else .num ((vs.getD (n / 2 - 1) 0 + vs.getD (n / 2) 0) / 2)

def Cell.rank : Cell → Nat
  | .na => 0
  | .bool _ => 1
  | .num _ => 2
  | .dt _ => 3
  | .str _ => 4

/-- A total comparison on cells, used for the tie-break of `mode()`
(pandas returns the most-frequent values sorted; `mode()[0]` is the
smallest of them). -/
def Cell.leB : Cell → Cell → Bool
  | .num a, .num b => decide (a ≤ b)
  | .dt a, .dt b => decide (a ≤ b)
  | .str a, .str b => decide (a ≤ b)
  | .bool a, .bool b => !a || b
  | a, b => decide (a.rank ≤ b.rank)

/-- `Series.mode()[0]` when the mode set is non-empty: a most-frequent
non-missing value, smallest under the cell order on ties. -/
def modeCell (cells : List Cell) : Option Cell :=
  let vs := cells.filter (fun c => !c.isna)
  match vs.dedup with
  | [] => none
  | c0 :: rest =>
    some (rest.foldl (fun best c =>
      if vs.count c > vs.count best || (vs.count c == vs.count best && Cell.leB c best)
      then c else best) c0)

def ffillAux : Option Cell → List Cell → List Cell
  | _, [] => []
  | prev, c :: rest =>
    if c.isna then (prev.getD .na) :: ffillAux prev rest
    else c :: ffillAux (some c) rest

/-- `fillna(method='ffill')`: a missing cell takes the previous
non-missing value; leading missing cells stay missing. -/
def ffillCells (cs : List Cell) : List Cell := ffillAux none cs

/-- `fillna(method='bfill')`. -/
def bfillCells (cs : List Cell) : List Cell := (ffillAux none cs.reverse).reverse

/-! ## Cleaning configuration and report (`data_cleaner.py`) -/

/-- `CleaningConfig` with the source's defaults. `keep_duplicate` is
`'first'` or `'last'` per its documentation. -/
structure CleaningConfig where
  remove_duplicates : Bool := true
  duplicate_subset : Option (List String) := none
  keep_duplicate : Bool := true  -- true ↔ 'first', false ↔ 'last'
  handle_nulls : Bool := true
  null_threshold : ℚ := mkRat 1 2
  fill_strategy : String := "mean"
  infer_types : Bool := true
  parse_dates : Bool := true
  normalize_names : Bool := true
  detect_outliers : Bool := false
  outlier_method : String := "iqr"
  deriving DecidableEq

/-- `CleaningReport`; dict-valued fields are insertion-ordered
association lists. -/
structure CleaningReport where
  original_shape : Nat × Nat := (0, 0)
  final_shape : Nat × Nat := (0, 0)
  duplicates_removed : Nat := 0
  nulls_filled : List (String × Nat) := []
  columns_dropped : List String := []
  types_converted : List (String × String) := []
  columns_renamed : List (String × String) := []
  outliers_detected : Nat := 0
  deriving DecidableEq

/-! ## The `DataCleaner` object

Python object state with explicit aliasing: `caller` is the frame object
the caller passed to the constructor; `self_df` is the frame currently
bound to `self.df`. `aliased` records whether the two are the same
object, so that in-place column writes (`self.df[col] = ...`) are
modelled faithfully: they write through to `caller` exactly when the
objects are aliased. Attribute rebinding (`self.df = <new frame>`)
always leaves the caller's object behind. -/

structure DataCleaner where
  caller : DF
  self_df : DF
  aliased : Bool
  config : CleaningConfig
  report : CleaningReport

/-- `DataCleaner.__init__`: `self.df = df.copy()` — the working frame
starts as a copy (same value, distinct object), so `aliased = false`. -/
def DataCleaner.init (df : DF) (config : CleaningConfig) : DataCleaner :=
  { caller := df
    self_df := df
    aliased := false
    config := config
    report := { original_shape := df.shape } }

/-- An in-place mutation of the frame object bound to `self.df`
(e.g. `self.df[col] = ...`): the caller sees it iff the objects alias. -/
def DataCleaner.inplace (s : DataCleaner) (f : DF → DF) : DataCleaner :=
  let d := f s.self_df
  { s with self_df := d, caller := if s.aliased then d else s.caller }

/-- Rebinding `self.df = f(self.df)`: a fresh object, never aliased to
the caller's frame. -/
def DataCleaner.rebind (s : DataCleaner) (f : DF → DF) : DataCleaner :=
  { s with self_df := f s.self_df, aliased := false }

def DataCleaner.withReport (s : DataCleaner) (f : CleaningReport → CleaningReport) : DataCleaner :=
  { s with report := f s.report }

/-! ## Step 1 — `remove_duplicates` -/

/-- The dedup key of row `i` (`subset=None` keys on the whole row). -/
def keyCellsAt (df : DF) (subset : Option (List String)) (i : Nat) : List Cell :=
  match subset with
  | none => df.rowAt i
  | some sub => (df.cols.filter (fun c => sub.contains c.name)).map (fun c => c.cells.getD i .na)

def keepRowForDedup (keepFirst : Bool) (keys : List (List Cell)) (i : Nat) : Bool :=
  let key := keys.getD i []
  if keepFirst then !(keys.take i).contains key
  else !(keys.drop (i + 1)).contains key

/-- `df.drop_duplicates(subset=..., keep=...)`. -/
def dropDuplicatesDF (subset : Option (List String)) (keepFirst : Bool) (df : DF) : DF :=
  let keys := (List.range df.nrows).map (keyCellsAt df subset)
  df.filterRows (fun i => keepRowForDedup keepFirst keys i)

def DataCleaner.removeDuplicatesStep (s : DataCleaner) : DataCleaner :=
  let initialCount := s.self_df.nrows
  let s1 := s.rebind (dropDuplicatesDF s.config.duplicate_subset s.config.keep_duplicate)
  s1.withReport (fun r => { r with duplicates_removed := initialCount - s1.self_df.nrows })

/-! ## Step 2 — `handle_nulls` -/

/-- One iteration of the fill loop: `null_count` is read first, the
configured strategy applied (type-inapplicable strategies fall through
to the default fill), and `nulls_filled[col] = null_count` recorded. -/
def DataCleaner.fillColStep (s : DataCleaner) (col : String) : DataCleaner :=
  match s.self_df.getCol col with
  | none => s
  | some c =>
    if c.nullCount = 0 then s
    else
      let strat := s.config.fill_strategy
      let s1 :=
        if strat = "drop" then
          s.rebind (fun d =>
            match d.getCol col with
            | some c2 => d.filterRows (fun i => !(c2.cells.getD i .na).isna)
            | none => d)
        else if strat = "mean" ∧ c.dtype.isNumeric then
          s.inplace (fun d => d.setCol col c.dtype (fillCells (meanCell c) c.cells))
        else if strat = "median" ∧ c.dtype.isNumeric then
          s.inplace (fun d => d.setCol col c.dtype (fillCells (medianCell c) c.cells))
        else if strat = "mode" then
          match modeCell c.cells with
          | some m => s.inplace (fun d => d.setCol col c.dtype (fillCells m c.cells))
          | none => s
        else if strat = "ffill" then
          s.inplace (fun d => d.setCol col c.dtype (ffillCells c.cells))
        else if strat = "bfill" then
          s.inplace (fun d => d.setCol col c.dtype (bfillCells c.cells))
        else
          if c.dtype.isNumeric then
            s.inplace (fun d => d.setCol col c.dtype (fillCells (.num 0) c.cells))
          else
            s.inplace (fun d => d.setCol col c.dtype (fillCells (.str "") c.cells))
      s1.withReport (fun r => { r with nulls_filled := updAssoc r.nulls_filled col c.nullCount })

/-- The column-dropping phase of `handle_nulls`: drop the columns whose
null ratio exceeds the threshold (a zero-row frame produces NaN ratios,
which compare false). -/
def DataCleaner.dropNullColsPhase (s : DataCleaner) : DataCleaner :=
  let df := s.self_df
  let colsToDrop := (df.cols.filter (fun c =>
    df.nrows != 0 && ratioGtQ c.nullCount df.nrows s.config.null_threshold)).map (·.name)
  if colsToDrop.isEmpty then s
  else
    (s.rebind (fun d => ⟨d.cols.filter (fun c => !(colsToDrop.contains c.name))⟩)).withReport
      (fun r => { r with columns_dropped := r.columns_dropped ++ colsToDrop })

/-- `handle_nulls`: the drop phase, then the fill loop over the
remaining columns. -/
def DataCleaner.handleNullsStep (s : DataCleaner) : DataCleaner :=
  let s1 := s.dropNullColsPhase
  (s1.self_df.names).foldl DataCleaner.fillColStep s1

/-! ## Step 3 — `normalize_columns` -/

/-- Collapse each whitespace run into a single underscore
(`re.sub(r'\s+', '_', ...)`). -/
def collapseWSAux : Bool → List Char → List Char
  | _, [] => []
  | inWS, c :: rest =>
    if c.isWhitespace then
      (if inWS then ([] : List Char) else ['_']) ++ collapseWSAux true rest
    else c :: collapseWSAux false rest

/-- The column-name canonicalisation of `normalize_columns`:
`re.sub(r'[^\w\s]', '', col)` keeps word characters — alphanumerics AND
the underscore — plus whitespace; then strip, collapse whitespace runs
to `_`, and lowercase. -/
def normName (s : String) : String :=
  let noSpecial := s.toList.filter (fun c => c.isAlphanum || c == '_' || c.isWhitespace)
  lowerStr (String.mk (collapseWSAux false (stripWSChars noSpecial)))

/-- The `renamed` dict: exactly the names the canonicalisation changes. -/
def renameList (names : List String) : List (String × String) :=
  (names.filter (fun c => normName c != c)).map (fun c => (c, normName c))

def applyRename (m : List (String × String)) (n : String) : String :=
  (lookupA m n).getD n

def DataCleaner.normalizeColumnsStep (s : DataCleaner) : DataCleaner :=
  let renamed := renameList s.self_df.names
  if renamed.isEmpty then s
  else
    (s.rebind (fun d => ⟨d.cols.map (fun c => { c with name := applyRename renamed c.name })⟩)).withReport
      (fun r => { r with columns_renamed := renamed })

/-! ## Step 4 — `infer_types` -/

/-- The numeric-coercion attempt (`data_cleaner.py` lines 219–229): the
whole column is converted when STRICTLY more than 80% of its values
convert; an all-integral, NaN-free result is `int64`, otherwise
`float64`. -/
def DataCleaner.numericAttempt (s : DataCleaner) (col : String) : DataCleaner :=
  match s.self_df.getCol col with
  | none => s
  | some c =>
    let converted := c.cells.map toNumericCell
    let n := converted.length
    if n ≠ 0 ∧ 5 * converted.countP (fun x => !x.isna) > 4 * n then
      let nd := if converted.any (·.isna) then Dtype.float64 else Dtype.int64
      (s.inplace (fun d => d.setCol col nd converted)).withReport
        (fun r => { r with types_converted := updAssoc r.types_converted col (c.dtype.toStr ++ " → numeric") })
    else s

/-- The date-coercion attempt (`data_cleaner.py` lines 235–244), reading
the column's CURRENT state (possibly already converted to numeric). -/
def DataCleaner.dateAttempt (s : DataCleaner) (col : String) : DataCleaner :=
  match s.self_df.getCol col with
  | none => s
  | some c =>
    let converted := c.cells.map toDatetimeCell
    let n := converted.length
    if n ≠ 0 ∧ 5 * converted.countP (fun x => !x.isna) > 4 * n then
      (s.inplace (fun d => d.setCol col .datetime64 converted)).withReport
        (fun r => { r with types_converted := updAssoc r.types_converted col (c.dtype.toStr ++ " → datetime") })
    else s

/-- One iteration of the `infer_types` loop: columns whose dtype is
`object` get the numeric attempt and then — unconditionally, when
`parse_dates` is on — the date attempt. -/
def DataCleaner.inferColStep (s : DataCleaner) (col : String) : DataCleaner :=
  match s.self_df.getCol col with
  | none => s
  | some c =>
    if c.dtype = .object then
      let s1 := s.numericAttempt col
      if s1.config.parse_dates then s1.dateAttempt col else s1
    else s

def DataCleaner.inferTypesStep (s : DataCleaner) : DataCleaner :=
  (s.self_df.names).foldl DataCleaner.inferColStep s

/-! ## Step 5 — `detect_outliers` -/

/-- `Series.quantile(q)` on an already sorted non-empty value list
(linear interpolation). -/
def quantilePos (sorted : List ℚ) (q : ℚ) : ℚ :=
  let n := sorted.length
  let pos := q * ((n : ℚ) - 1)
  let l := pos.floor.toNat
  let vl := sorted.getD l 0
  let vu := sorted.getD (l + 1) vl
  vl + (pos - (l : ℚ)) * (vu - vl)

/-- The IQR outlier mask of a column (missing cells are never flagged;
an all-missing column has NaN bounds, which compare false). -/
def iqrFlags (c : Col) : List Bool :=
  match c.vals.mergeSort (fun a b => decide (a ≤ b)) with
  | [] => c.cells.map (fun _ => false)
  | vs =>
    let q1 := quantilePos vs (1/4)
    let q3 := quantilePos vs (3/4)
    let iqr := q3 - q1
    let lb := q1 - 3/2 * iqr
    let ub := q3 + 3/2 * iqr
    c.cells.map (fun x => match x with
      | .num v => decide (v < lb) || decide (v > ub)
      | _ => false)

/-- One iteration of the outlier loop, threading the running count. -/
def DataCleaner.outlierColStep (p : DataCleaner × Nat) (col : String) : DataCleaner × Nat :=
  if p.1.config.outlier_method = "iqr" then
    match p.1.self_df.getCol col with
    | none => p
    | some c =>
      let flags := iqrFlags c
      let k := flags.countP id
      let s1 :=
        if k > 0 then
          p.1.inplace (fun d => d.setCol (col ++ "_outlier") .boolDtype (flags.map Cell.bool))
        else p.1
      (s1, p.2 + k)
  else p

def DataCleaner.detectOutliersStep (s : DataCleaner) : DataCleaner :=
  let numCols := (s.self_df.cols.filter (fun c => c.dtype.isNumeric)).map (·.name)
  let p := numCols.foldl DataCleaner.outlierColStep (s, 0)
  p.1.withReport (fun r => { r with outliers_detected := p.2 })

/-! ## `clean` — the full pass -/

def DataCleaner.clean (s0 : DataCleaner) : DataCleaner :=
  let s := if s0.config.remove_duplicates then s0.removeDuplicatesStep else s0
  let s := if s.config.handle_nulls then s.handleNullsStep else s
  let s := if s.config.normalize_names then s.normalizeColumnsStep else s
  let s := if s.config.infer_types then s.inferTypesStep else s
  let s := if s.config.detect_outliers then s.detectOutliersStep else s
  s.withReport (fun r => { r with final_shape := s.self_df.shape })

/-- The cleaned frame `clean()` returns. -/
def cleanDF (df : DF) (cfg : CleaningConfig) : DF :=
  ((DataCleaner.init df cfg).clean).self_df

/-! ## Path helpers (`pathlib.Path.suffix` / `.stem` / `.name`) -/

/-- The final path component (`Path(p).name`). -/
def lastComponent (cs : List Char) : List Char :=
  cs.foldl (fun acc c => if c = '/' then [] else acc ++ [c]) []

/-- `Path(p).suffix`: the last dot-suffix of the final component, empty
when the only dot is leading (`.bashrc`) or trailing (`a.`). -/
def pathSuffix (path : String) : String :=
  let name := lastComponent path.toList
  let revTail := name.reverse.takeWhile (fun c => c ≠ '.')
  if revTail.length = name.length then ""
  else
    let i := name.length - 1 - revTail.length
    if 0 < i ∧ i < name.length - 1 then String.mk (name.drop i) else ""

/-- `Path(p).stem`: the final component without its suffix. -/
def pathStem (path : String) : String :=
  let name := lastComponent path.toList
  String.mk (name.take (name.length - (pathSuffix path).length))

/-! ## `ParserFactory` (`parser_factory.py`) -/

inductive ParserKind where
  | excel
  | csv
  | word
  | pdf
  deriving DecidableEq

/-- The `PARSERS` extension → parser table, in source order. -/
def PARSERS : List (String × ParserKind) :=
  [(".xlsx", .excel), (".xls", .excel), (".csv", .csv),
   (".docx", .word), (".doc", .word), (".pdf", .pdf)]

inductive ParserError where
  | fileNotFound (msg : String)
  | unsupportedFormat (ext : String) (supported : String)
  deriving DecidableEq

/-- `ParserFactory.create_parser`, with the filesystem abstracted as the
list of existing paths: the existence check comes first
(`FileNotFoundError`), then the lowercased extension is resolved;
unknown extensions raise `ValueError` whose message lists the supported
formats (`', '.join(PARSERS.keys())`). -/
def ParserFactory.create_parser (fs : List String) (path : String) :
    Except ParserError ParserKind :=
  if !fs.contains path then
    .error (.fileNotFound ("File not found: " ++ path))
  else
    let ext := lowerStr (pathSuffix path)
    match lookupA PARSERS ext with
    | some k => .ok k
    | none =>
      .error (.unsupportedFormat ext (String.intercalate ", " (PARSERS.map (·.1))))

/-! ## `ExcelParser` (`excel_parser.py`)

A workbook is the ordered list of its sheets (name, frame). Only the
fields the envelope's `metrics`/`content.tables`/`content.structure`
carry are modelled; the `content.text` rendering (`df.to_string`) is
presentation-only and outside the model. -/

structure ExcelEnvelope where
  tables : List DF
  sheet_names : List String
  structure_sheet_count : Nat
  metrics_sheet_count : Nat
  row_count : Nat
  column_count : Nat
  total_cells : Nat
  deriving DecidableEq

/-- `_load_sheets`: every sheet is read into the `self.data` dict in
sheet order (dict semantics: a repeated sheet name would overwrite in
place — real workbooks have unique sheet names). -/
def ExcelParser.loadSheets (wb : List (String × DF)) : List (String × DF) :=
  wb.foldl (fun d p => updAssoc d p.1 p.2) []

/-- `extract_metrics(first_sheet)` as `parse` consumes it: `{}` (all
zeros downstream) when there is no first sheet, the first sheet's name
is falsy (empty), or it is absent from the dict. -/
def ExcelParser.firstSheetMetrics (data : List (String × DF)) : Nat × Nat :=
  match data.head? with
  | none => (0, 0)
  | some (name, _) =>
    if name = "" then (0, 0)
    else
      match lookupA data name with
      | some df => (df.nrows, df.ncols)
      | none => (0, 0)

/-- `ExcelParser.parse`: `content.tables` holds every sheet, while
`metrics.row_count`/`column_count` come from the first sheet only. -/
def ExcelParser.parse (wb : List (String × DF)) : ExcelEnvelope :=
  let data := ExcelParser.loadSheets wb
  let rc := ExcelParser.firstSheetMetrics data
  { tables := data.map (·.2)
    sheet_names := data.map (·.1)
    structure_sheet_count := data.length
    metrics_sheet_count := data.length
    row_count := rc.1
    column_count := rc.2
    total_cells := rc.1 * rc.2 }

/-! ## `WordParser.extract_tables` (`word_parser.py`)

A raw embedded table is the list of its rows of cell texts. -/

/-- The columns of `pd.DataFrame(rows, columns=headers)`: column `j`
takes entry `j` of every row (short rows padded with NaN), written as a
head/tail recursion over the header list. -/
def wordCols (headers : List String) (rows : List (List String)) : List Col :=
  match headers with
  | [] => []
  | h :: hs =>
    ⟨h, .object, rows.map (fun r =>
      match r.head? with
      | some v => Cell.str v
      | none => Cell.na)⟩ :: wordCols hs (rows.map (fun r => r.tail))

/-- `pd.DataFrame(rows, columns=headers)` as the word parser builds it. -/
def wordDF (headers : List String) (rows : List (List String)) : DF :=
  ⟨wordCols headers rows⟩

/-- DataFrame construction succeeds unless a row is wider than the
header (pandas raises then; the parser catches and skips the table). -/
def mkWordDF (headers : List String) (rows : List (List String)) : Option DF :=
  if rows.all (fun r => r.length ≤ headers.length) then some (wordDF headers rows)
  else none

/-- `WordParser.extract_tables`: tables with fewer than 2 raw rows are
skipped; otherwise the first row becomes the header and the rest the
data; a failing construction is skipped with a warning. -/
def WordParser.extract_tables (raws : List (List (List String))) : List DF :=
  raws.filterMap (fun data =>
    match data with
    | [] => none
    | headers :: rows =>
      if data.length < 2 then none
      else mkWordDF headers rows)

/-! ## `ExcelMerger` (`excel_merger.py`) -/

/-- The envelope fields the merger consumes. -/
structure Envelope where
  file_name : String
  file_format : String
  file_size_mb : ℚ
  tables : List DF
  deriving DecidableEq

/-- The merger object: the accumulated envelopes and their paths. -/
structure ExcelMerger where
  sources : List Envelope
  file_paths : List String
  auto_clean : Bool
  cleaning_config : CleaningConfig

/-- `ExcelMerger(auto_clean, cleaning_config)`. -/
def ExcelMerger.init (auto_clean : Bool) (cfg : CleaningConfig) : ExcelMerger :=
  { sources := [], file_paths := [], auto_clean := auto_clean, cleaning_config := cfg }

/-- `add_file`: on a successful parse the envelope and path are
appended and `True` returned; a parse failure leaves the state
untouched and returns `False`. The dispatcher+parser outcome is the
`parsed` argument. -/
def ExcelMerger.add_file (st : ExcelMerger) (path : String) (parsed : Option Envelope) :
    ExcelMerger × Bool :=
  match parsed with
  | some data =>
    ({ st with sources := st.sources ++ [data], file_paths := st.file_paths ++ [path] }, true)
  | none => (st, false)

/-- A heterogeneous summary-sheet cell (`''` is `blank`). -/
inductive SVal where
  | s (v : String)
  | i (v : Int)
  | q (v : ℚ)
  | blank
  deriving DecidableEq

/-- One row of the `Summary` sheet, keyed as the source dicts are. -/
structure SummaryRow where
  sourceFile : SVal
  format : SVal
  tables : SVal
  totalRows : SVal
  fileSizeMB : SVal
  status : SVal
  deriving DecidableEq

/-- The int behind a summary cell (`sum(row['Total Rows'] ...)` only
ever meets int-valued rows on the slice the source takes). -/
def SVal.asInt : SVal → Int
  | .i v => v
  | _ => 0

/-- A source file's total row count across its tables. -/
def Envelope.totalRows (d : Envelope) : Nat :=
  (d.tables.map (fun df => df.nrows)).sum

/-- `_create_summary_sheet`: one row per source file, a separator row, a
totals row whose `Total Rows` sums `summary_data[:-2]` — the list at
that moment being the per-file rows plus the separator — and a
timestamp row. -/
def ExcelMerger.createSummaryRows (st : ExcelMerger) (totalSheets : Nat) (now : String) :
    List SummaryRow :=
  let fileRows := st.sources.map (fun d =>
    { sourceFile := .s d.file_name
      format := .s (upperStr d.file_format)
      tables := .i d.tables.length
      totalRows := .i (d.totalRows : Int)
      fileSizeMB := .q d.file_size_mb
      status := .s "✓ Merged" : SummaryRow })
  let sep : SummaryRow :=
    { sourceFile := .s "--- MERGE INFO ---", format := .blank, tables := .blank,
      totalRows := .blank, fileSizeMB := .blank, status := .blank }
  let rows1 := fileRows ++ [sep]
  let totals : SummaryRow :=
    { sourceFile := .s "Total Files Merged"
      format := .i st.sources.length
      tables := .i totalSheets
      totalRows := .i (((rows1.dropLast.dropLast).map (fun r => r.totalRows.asInt)).sum)
      fileSizeMB := .blank
      status := .blank }
  let stamp : SummaryRow :=
    { sourceFile := .s "Merge Timestamp", format := .s now, tables := .blank,
      totalRows := .blank, fileSizeMB := .blank, status := .blank }
  rows1 ++ [totals] ++ [stamp]

/-- The sheet name of table `tidx` (0-based) of a file contributing
`numTables` tables: the stem alone for a single table, `_T<n>`
(1-indexed) otherwise, truncated to 31 characters. -/
def sheetNameFor (stem : String) (numTables : Nat) (tidx : Nat) : String :=
  (if numTables = 1 then stem else stem ++ "_T" ++ toString (tidx + 1)).take 31

/-- The workbook `merge_to_excel` writes: the data sheets in order plus
the trailing `Summary` sheet. -/
structure MergeOutput where
  dataSheets : List (String × DF)
  summary : List SummaryRow
  deriving DecidableEq

/-- `merge_to_excel(output_path)`: with no accumulated sources it
returns `False` before touching the filesystem (no output file); with
sources it writes every (optionally cleaned) table as a sheet, appends
the summary sheet, and returns `True`. The returned `Option` is the
created output file. -/
def ExcelMerger.merge_to_excel (st : ExcelMerger) (now : String) :
    Bool × Option MergeOutput :=
  if st.sources.isEmpty then (false, none)
  else
    let dataSheets := (st.sources.zip st.file_paths).flatMap (fun p =>
      let stem := pathStem p.2
      p.1.tables.enum.map (fun t =>
        let df := if st.auto_clean then cleanDF t.2 st.cleaning_config else t.2
        (sheetNameFor stem p.1.tables.length t.1, df)))
    (true, some { dataSheets := dataSheets
                  summary := st.createSummaryRows dataSheets.length now })

/-! ## Concrete fixtures used by witnesses and counterexamples -/

/-- A text column whose three values all parse as numbers. -/
def dfC3Cells : List Cell := [.str "1", .str "2", .str "3"]

def dfC3 : DF := ⟨[⟨"c", .object, dfC3Cells⟩]⟩

/-- A 6-value text column with 5 numeric values (5/6 > 80%). -/
def dfC4wCells : List Cell :=
  [.str "1", .str "2", .str "3", .str "4", .str "5", .str "x"]

def dfC4w : DF := ⟨[⟨"c", .object, dfC4wCells⟩]⟩

/-- A text column in which exactly 4 of 5 values (80%) parse as numbers. -/
def dfC4 : DF := ⟨[⟨"c", .object, [.str "1", .str "2", .str "3", .str "4", .str "x"]⟩]⟩

/-- A column whose name contains an underscore and nothing else unusual. -/
def dfC6 : DF := ⟨[⟨"a_b", .int64, [.num 1]⟩]⟩

/-- The column-name canonicalisation as the SPEC words it (for
comparison with `normName`): strip characters outside alphanumerics and
whitespace — so, unlike the code's `\w`, the underscore is stripped —
then collapse whitespace runs to an underscore and lowercase. -/
def normNameSpec (s : String) : String :=
  let noSpecial := s.toList.filter (fun c => c.isAlphanum || c.isWhitespace)
  lowerStr (String.mk (collapseWSAux false (stripWSChars noSpecial)))

/-- A numeric column with a LEADING null. -/
def dfC10 : DF := ⟨[⟨"c", .float64, [.na, .num 1]⟩]⟩

/-- The forward-fill and drop-rows fill strategies. -/
def cfgFfill : CleaningConfig := { fill_strategy := "ffill" }

def cfgDrop : CleaningConfig := { fill_strategy := "drop" }

/-- A two-sheet workbook with different sheet shapes. -/
def wbC5 : List (String × DF) :=
  [("s1", ⟨[⟨"a", .int64, [.num 1, .num 2]⟩]⟩),
   ("s2", ⟨[⟨"b", .int64, [.num 1, .num 2, .num 3]⟩, ⟨"c", .int64, [.num 4, .num 5, .num 6]⟩]⟩)]

/-- An envelope with zero tables (e.g. a text-only PDF). -/
def envNoTables : Envelope :=
  { file_name := "a.pdf", file_format := "pdf", file_size_mb := 1, tables := [] }

/-- A merger that successfully added one file whose envelope has zero
tables. -/
def mergerZeroTables : ExcelMerger :=
  ((ExcelMerger.init false {}).add_file "data/a.pdf" (some envNoTables)).1

/-- A merger to which nothing was ever successfully added. -/
def mergerEmpty : ExcelMerger :=
  ((ExcelMerger.init false {}).add_file "data/bad.xyz" none).1

/-- Envelopes with 2 and 3 total rows respectively. -/
def envC2a : Envelope :=
  { file_name := "x.csv", file_format := "csv", file_size_mb := 1,
    tables := [⟨[⟨"a", .int64, [.num 1, .num 2]⟩]⟩] }

def envC2b : Envelope :=
  { file_name := "y.csv", file_format := "csv", file_size_mb := 1,
    tables := [⟨[⟨"a", .int64, [.num 1, .num 2, .num 3]⟩]⟩] }

/-- A merger that accumulated the 2-row source and then the 3-row one. -/
def mergerC2 : ExcelMerger :=
  (((ExcelMerger.init false {}).add_file "x.csv" (some envC2a)).1.add_file
    "y.csv" (some envC2b)).1

/-! # Shared helper lemmas -/

theorem lookupA_updAssoc_self {V : Type} (m : List (String × V)) (k : String) (v : V) :
    lookupA (updAssoc m k v) k = some v := by
  unfold updAssoc
  split
  · rename_i h
    induction m with
    | nil => simp at h
    | cons p rest ih =>
      simp only [List.any_cons, Bool.or_eq_true, beq_iff_eq] at h
      by_cases hp : p.1 = k
      · simp [lookupA, hp]
      · simp only [List.map_cons, if_neg hp, lookupA, if_neg hp]
        exact ih (by rcases h with h | h; exact absurd h hp; simpa using h)
  · induction m with
    | nil => simp [lookupA]
    | cons p rest ih =>
      rename_i h
      simp only [List.any_cons, Bool.or_eq_true, beq_iff_eq] at h
      push_neg at h
      simp only [List.cons_append, lookupA, if_neg h.1]
      exact ih (by simpa using h.2)

theorem lookupA_map_upd_ne {V : Type} (m : List (String × V)) (k k' : String) (v : V)
    (hne : k' ≠ k) :
    lookupA (m.map (fun p => if p.1 = k then (p.1, v) else p)) k' = lookupA m k' := by
  induction m with
  | nil => simp [lookupA]
  | cons p rest ih =>
    by_cases hp : p.1 = k
    · simp [lookupA, hp, ih, Ne.symm hne]
    · simp only [List.map_cons, if_neg hp, lookupA]
      by_cases hk : p.1 = k'
      · simp [hk]
      · simp [hk, ih]

theorem lookupA_append_single_ne {V : Type} (m : List (String × V)) (k k' : String) (v : V)
    (hne : k' ≠ k) : lookupA (m ++ [(k, v)]) k' = lookupA m k' := by
  induction m with
  | nil => simp [lookupA, Ne.symm hne]
  | cons p rest ih =>
    simp only [List.cons_append, lookupA]
    by_cases hk : p.1 = k'
    · simp [hk]
    · simp [hk, ih]

theorem lookupA_updAssoc_ne {V : Type} (m : List (String × V)) (k k' : String) (v : V)
    (hne : k' ≠ k) : lookupA (updAssoc m k v) k' = lookupA m k' := by
  unfold updAssoc
  split
  · exact lookupA_map_upd_ne m k k' v hne
  · exact lookupA_append_single_ne m k k' v hne

theorem map_eq_self_of_mem {α : Type} (l : List α) (f : α → α) (h : ∀ x ∈ l, f x = x) :
    l.map f = l := by
  induction l with
  | nil => rfl
  | cons a t ih =>
    simp only [List.map_cons, h a (List.mem_cons_self a t),
      ih (fun x hx => h x (List.mem_cons_of_mem a hx))]

theorem lookupA_eq_none_of_not_mem {V : Type} (m : List (String × V)) (k : String)
    (h : k ∉ m.map Prod.fst) : lookupA m k = none := by
  induction m with
  | nil => rfl
  | cons p rest ih =>
    simp only [List.map_cons, List.mem_cons] at h
    push_neg at h
    simp only [lookupA, if_neg (Ne.symm h.1)]
    exact ih h.2

theorem find?_map_setCol (cols : List Col) (c : String) (d : Dtype) (cells : List Cell)
    (col0 : Col) (h : cols.find? (fun col => col.name == c) = some col0) :
    (cols.map (fun col => if col.name == c then (⟨col.name, d, cells⟩ : Col) else col)).find?
      (fun col => col.name == c) = some ⟨c, d, cells⟩ := by
  induction cols with
  | nil => simp [List.find?] at h
  | cons a t ih =>
    by_cases ha : (a.name == c) = true
    · have hac : a.name = c := by simpa using ha
      simp [List.find?, ha, hac]
    · have hac : ¬ a.name = c := by simpa using ha
      have ha' : (a.name == c) = false := by simpa using hac
      simp only [List.find?, ha'] at h
      simp only [List.map_cons, List.find?, ha', Bool.false_eq_true, if_false]
      exact ih h

/-- Writing a column that exists leaves it findable with the written
dtype and cells, at its position. -/
theorem getCol_setCol_self (df : DF) (c : String) (d : Dtype) (cells : List Cell)
    (col0 : Col) (h : df.getCol c = some col0) :
    (df.setCol c d cells).getCol c = some ⟨c, d, cells⟩ := by
  unfold DF.getCol at h
  have hmem : col0 ∈ df.cols := List.mem_of_find?_eq_some h
  have hp : (col0.name == c) = true := by
    have := List.find?_some h
    simpa using this
  have hany : df.cols.any (fun col => col.name == c) = true :=
    List.any_eq_true.mpr ⟨col0, hmem, hp⟩
  unfold DF.setCol DF.getCol
  rw [if_pos hany]
  exact find?_map_setCol df.cols c d cells col0 h

/-! # C7 — dispatcher `create` failure order and messages -/

/-- C7: for every path given to `create_parser`, a missing path fails
with `FileNotFoundError` before the extension is ever examined; an
existing path whose lowercased extension is not one of the six
supported ones fails with an `UnsupportedFormat` error whose message
lists all six supported extensions. -/
theorem hopper_C7 (fs : List String) (path : String) :
    (path ∉ fs →
      ParserFactory.create_parser fs path =
        .error (.fileNotFound ("File not found: " ++ path))) ∧
    (path ∈ fs →
      lowerStr (pathSuffix path) ∉ PARSERS.map Prod.fst →
      ParserFactory.create_parser fs path =
        .error (.unsupportedFormat (lowerStr (pathSuffix path))
          ".xlsx, .xls, .csv, .docx, .doc, .pdf")) := by
  constructor
  · intro h
    have hc : (!fs.contains path) = true := by
      simp [List.contains, List.elem_eq_mem, h]
    unfold ParserFactory.create_parser
    rw [if_pos hc]
  · intro hmem hext
    have hc : ¬ (!fs.contains path) = true := by
      simp [List.contains, List.elem_eq_mem, hmem]
    have hl : lookupA PARSERS (lowerStr (pathSuffix path)) = none :=
      lookupA_eq_none_of_not_mem _ _ hext
    unfold ParserFactory.create_parser
    rw [if_neg hc]
    simp only [hl]
    rfl

/-- Witness for C7 at concrete inputs: a missing `f.xlsx` and an
existing `f.txt`. -/
theorem hopper_C7_witness :
    ParserFactory.create_parser [] "f.xlsx" =
      .error (.fileNotFound "File not found: f.xlsx") ∧
    ParserFactory.create_parser ["f.txt"] "f.txt" =
      .error (.unsupportedFormat ".txt" ".xlsx, .xls, .csv, .docx, .doc, .pdf") := by
  constructor
  · exact (hopper_C7 [] "f.xlsx").1 (by simp)
  · exact (hopper_C7 ["f.txt"] "f.txt").2 (by simp) (by decide)

/-! # C5 — spreadsheet envelope asymmetry -/

theorem updAssoc_of_not_mem {V : Type} (m : List (String × V)) (k : String) (v : V)
    (h : k ∉ m.map Prod.fst) : updAssoc m k v = m ++ [(k, v)] := by
  unfold updAssoc
  rw [if_neg]
  intro hany
  rcases List.any_eq_true.mp hany with ⟨p, hp, hpk⟩
  exact h (List.mem_map.mpr ⟨p, hp, by simpa using hpk⟩)

theorem loadSheets_eq_self (wb : List (String × DF)) (hnd : (wb.map Prod.fst).Nodup) :
    ExcelParser.loadSheets wb = wb := by
  suffices haux : ∀ (rest acc : List (String × DF)),
      ((acc ++ rest).map Prod.fst).Nodup →
      rest.foldl (fun d p => updAssoc d p.1 p.2) acc = acc ++ rest by
    simpa using haux wb [] (by simpa using hnd)
  intro rest
  induction rest with
  | nil => intro acc _; simp
  | cons p t ih =>
    intro acc hacc
    have hacc2 : ((acc.map Prod.fst) ++ (p.1 :: t.map Prod.fst)).Nodup := by
      simpa using hacc
    have hk : p.1 ∉ acc.map Prod.fst := fun hmem =>
      (List.nodup_append.mp hacc2).2.2 hmem (List.mem_cons_self _ _)
    rw [List.foldl_cons, updAssoc_of_not_mem acc p.1 p.2 hk]
    have hstep := ih (acc ++ [(p.1, p.2)]) (by simpa using hacc)
    simpa using hstep

/-- C5: parsing a workbook (non-empty, with the distinct non-empty
sheet names real workbooks have) yields an envelope whose
`metrics.row_count`/`column_count` are the FIRST sheet's row and column
counts, while `content.tables` holds one table per sheet in sheet
order. -/
theorem hopper_C5 (wb : List (String × DF)) (hne : wb ≠ [])
    (hnd : (wb.map Prod.fst).Nodup) (hname : (wb.head hne).1 ≠ "") :
    (ExcelParser.parse wb).tables = wb.map Prod.snd ∧
    (ExcelParser.parse wb).sheet_names = wb.map Prod.fst ∧
    (ExcelParser.parse wb).row_count = (wb.head hne).2.nrows ∧
    (ExcelParser.parse wb).column_count = (wb.head hne).2.ncols := by
  obtain ⟨p, rest, rfl⟩ := List.exists_cons_of_ne_nil hne
  have hload : ExcelParser.loadSheets (p :: rest) = p :: rest := loadSheets_eq_self _ hnd
  have hname2 : p.1 ≠ "" := hname
  have hm : ExcelParser.firstSheetMetrics (p :: rest) = (p.2.nrows, p.2.ncols) := by
    unfold ExcelParser.firstSheetMetrics
    simp only [List.head?_cons]
    rw [if_neg hname2]
    simp [lookupA]
  refine ⟨?_, ?_, ?_, ?_⟩ <;> simp [ExcelParser.parse, hload, hm, List.head]

/-- Witness for C5: a two-sheet workbook whose sheets have different
shapes. -/
theorem hopper_C5_witness :
    (ExcelParser.parse wbC5).row_count = 2 ∧
    (ExcelParser.parse wbC5).column_count = 1 ∧
    (ExcelParser.parse wbC5).tables.length = 2 := by
  have h := hopper_C5 wbC5 (by decide) (by decide) (by decide)
  refine ⟨?_, ?_, ?_⟩
  · rw [h.2.2.1]; rfl
  · rw [h.2.2.2]; rfl
  · rw [h.1]; rfl

/-! # C1 — merge failure semantics -/

/-- Counterexample to C1: a merger holding one successfully added
envelope with zero tables (a perfectly possible envelope, e.g. a
text-only PDF). The claim says `merge_to_excel` returns false; the code
returns TRUE and writes a workbook containing only the Summary sheet. -/
theorem hopper_C1_counterexample :
    (mergerZeroTables.merge_to_excel "2026-10-12 00:00:00").1 = true ∧
    ((mergerZeroTables.merge_to_excel "2026-10-12 00:00:00").2.map
      (fun o => o.dataSheets)) = some [] := by
  constructor <;> rfl

/-- C1 (amended): `merge_to_excel` returns false — without raising —
exactly when no file was ever successfully added (`self.sources` is
empty), and in that case no output file is created; when envelopes
exist but every one of them holds zero tables, the merge SUCCEEDS,
returning true and writing a workbook whose only sheet is the Summary
sheet. -/
theorem hopper_C1 (st : ExcelMerger) (now : String) :
    (st.sources = [] → st.merge_to_excel now = (false, none)) ∧
    (st.sources ≠ [] → (∀ d ∈ st.sources, d.tables = []) →
      (st.merge_to_excel now).1 = true ∧
      (st.merge_to_excel now).2.map (fun o => o.dataSheets) = some []) := by
  constructor
  · intro h
    unfold ExcelMerger.merge_to_excel
    rw [if_pos (by simp [h])]
  · intro hne hall
    have hflat : (st.sources.zip st.file_paths).flatMap (fun p =>
        let stem := pathStem p.2
        p.1.tables.enum.map (fun t =>
          let df := if st.auto_clean then cleanDF t.2 st.cleaning_config else t.2
          (sheetNameFor stem p.1.tables.length t.1, df))) = [] := by
      rw [List.flatMap_eq_nil_iff]
      intro p hp
      have hmem : p.1 ∈ st.sources := (List.mem_zip hp).1
      simp [hall p.1 hmem]
    unfold ExcelMerger.merge_to_excel
    rw [if_neg (by simp [hne])]
    rw [hflat]
    exact ⟨rfl, rfl⟩

/-- Witness for C1 at concrete inputs: an empty merger and the
zero-table merger. -/
theorem hopper_C1_witness :
    mergerEmpty.merge_to_excel "t" = (false, none) ∧
    (mergerZeroTables.merge_to_excel "t").1 = true := by
  constructor
  · exact (hopper_C1 mergerEmpty "t").1 rfl
  · exact ((hopper_C1 mergerZeroTables "t").2 (by decide)
      (by intro d hd; simp [mergerZeroTables, ExcelMerger.add_file, ExcelMerger.init] at hd;
          simp [hd, envNoTables])).1

/-! # C2 — summary aggregate total row count -/

/-- C2: evaluating the code at the failing input. Two sources with 2
and 3 total rows are merged; the summary rows are (in order) the two
per-file rows, the separator, the aggregate-totals row, and the
timestamp row. The totals row's `Total Rows` is computed over
`summary_data[:-2]`, which at that moment strips the separator AND the
last per-file row, so it reports 2 instead of 2 + 3 = 5. -/
theorem hopper_C2 :
    ((mergerC2.merge_to_excel "2026-10-12 00:00:00").2.map
      (fun o => o.summary.map (fun r => r.totalRows))) =
      some [.i 2, .i 3, .blank, .i 2, .blank] ∧
    envC2a.totalRows + envC2b.totalRows = 5 := by
  constructor <;> rfl

/-! # C8 — word-parser table extraction -/

theorem names_wordDF (headers : List String) :
    ∀ rows : List (List String), (wordDF headers rows).names = headers := by
  induction headers with
  | nil => intro rows; rfl
  | cons h hs ih =>
    intro rows
    have := ih (rows.map (fun r => r.tail))
    simp only [wordDF, wordCols, DF.names, List.map_cons] at this ⊢
    exact congrArg (h :: ·) this

theorem rowAt_wordDF (headers : List String) :
    ∀ (rows : List (List String)) (i : Nat) (r : List String),
      rows.get? i = some r → r.length = headers.length →
      (wordDF headers rows).rowAt i = r.map Cell.str := by
  induction headers with
  | nil =>
    intro rows i r _ hlen
    have : r = [] := List.length_eq_zero.mp hlen
    subst this
    rfl
  | cons h hs ih =>
    intro rows i r hget hlen
    obtain ⟨v, rt, rfl⟩ : ∃ v rt, r = v :: rt := by
      cases r with
      | nil => simp at hlen
      | cons v rt => exact ⟨v, rt, rfl⟩
    have hgetElem : rows[i]? = some (v :: rt) := by
      rw [← List.get?_eq_getElem?]
      exact hget
    have hhead : (rows.map (fun r => match r.head? with
        | some v => Cell.str v
        | none => Cell.na)).getD i .na = Cell.str v := by
      have hm : (rows.map (fun r => match r.head? with
          | some v => Cell.str v
          | none => Cell.na))[i]? = some (Cell.str v) := by
        rw [List.getElem?_map, hgetElem]
        rfl
      simp [List.getD_eq_getElem?_getD, hm]
    have htail : (wordDF hs (rows.map (fun r => r.tail))).rowAt i = rt.map Cell.str := by
      refine ih (rows.map (fun r => r.tail)) i rt ?_ ?_
      · rw [List.get?_eq_getElem?, List.getElem?_map, hgetElem]
        rfl
      · simpa using hlen
    simp only [wordDF, wordCols, DF.rowAt, List.map_cons] at htail ⊢
    rw [hhead, htail]

theorem nrows_wordDF (h : String) (hs : List String) (rows : List (List String)) :
    (wordDF (h :: hs) rows).nrows = rows.length := by
  simp [wordDF, wordCols, DF.nrows]

/-- The general skipping property: raw tables with fewer than 2 rows
contribute nothing to `extract_tables`. -/
theorem extract_tables_skips_short (raws : List (List (List String))) :
    WordParser.extract_tables raws =
      WordParser.extract_tables (raws.filter (fun t => decide (2 ≤ t.length))) := by
  induction raws with
  | nil => rfl
  | cons t rest ih =>
    by_cases hlen : 2 ≤ t.length
    · have hf : (fun t : List (List String) => decide (2 ≤ t.length)) t = true := by
        simpa using hlen
      obtain ⟨hd, tl, rfl⟩ : ∃ hd tl, t = hd :: tl := by
        cases t with
        | nil => simp at hlen
        | cons hd tl => exact ⟨hd, tl, rfl⟩
      unfold WordParser.extract_tables at ih ⊢
      rw [@List.filter_cons_of_pos _ (fun t : List (List String) => decide (2 ≤ t.length))
        _ rest hf]
      rw [List.filterMap_cons, List.filterMap_cons]
      simp only [if_neg (by omega : ¬ (hd :: tl).length < 2)]
      cases hm : mkWordDF hd tl <;> simp [hm, ih]
    · have hf : ¬ (fun t : List (List String) => decide (2 ≤ t.length)) t = true := by
        simpa using hlen
      have hlt : t.length < 2 := Nat.not_le.mp hlen
      unfold WordParser.extract_tables at ih ⊢
      rw [@List.filter_cons_of_neg _ (fun t : List (List String) => decide (2 ≤ t.length))
        _ rest hf]
      rw [List.filterMap_cons]
      cases t with
      | nil => simpa using ih
      | cons hd tl =>
        simp only [if_pos hlt]
        exact ih

/-- C8: a document with one 3-row table (1 header + 2 data rows of the
header's width) and one 1-row table yields exactly one extracted table,
whose header is the 3-row table's first row and whose two data rows are
its remaining rows; in general every raw table with fewer than 2 rows
is omitted. -/
theorem hopper_C8 (h r1 r2 r : List String) (hh : h ≠ [])
    (h1 : r1.length = h.length) (h2 : r2.length = h.length) :
    (WordParser.extract_tables [[h, r1, r2], [r]] = [wordDF h [r1, r2]] ∧
     (wordDF h [r1, r2]).names = h ∧
     (wordDF h [r1, r2]).nrows = 2 ∧
     (wordDF h [r1, r2]).rowAt 0 = r1.map Cell.str ∧
     (wordDF h [r1, r2]).rowAt 1 = r2.map Cell.str) ∧
    (∀ raws : List (List (List String)),
      WordParser.extract_tables raws =
        WordParser.extract_tables (raws.filter (fun t => decide (2 ≤ t.length)))) := by
  refine ⟨⟨?_, names_wordDF h [r1, r2], ?_, ?_, ?_⟩, extract_tables_skips_short⟩
  · have hmk : mkWordDF h [r1, r2] = some (wordDF h [r1, r2]) := by
      unfold mkWordDF
      rw [if_pos]
      simp [h1, h2]
    unfold WordParser.extract_tables
    rw [List.filterMap_cons, List.filterMap_cons]
    simp only [if_neg (by simp : ¬ ([h, r1, r2] : List (List String)).length < 2),
      if_pos (by simp : ([r] : List (List String)).length < 2), hmk]
    rfl
  · obtain ⟨h0, hs, rfl⟩ := List.exists_cons_of_ne_nil hh
    exact nrows_wordDF h0 hs [r1, r2]
  · exact rowAt_wordDF h [r1, r2] 0 r1 rfl h1
  · exact rowAt_wordDF h [r1, r2] 1 r2 rfl h2

/-- Witness for C8 at a concrete document. -/
theorem hopper_C8_witness :
    WordParser.extract_tables [[["h1", "h2"], ["a", "b"], ["c", "d"]], [["only"]]] =
      [wordDF ["h1", "h2"] [["a", "b"], ["c", "d"]]] ∧
    (wordDF ["h1", "h2"] [["a", "b"], ["c", "d"]]).names = ["h1", "h2"] ∧
    (wordDF ["h1", "h2"] [["a", "b"], ["c", "d"]]).nrows = 2 := by
  have h := hopper_C8 ["h1", "h2"] ["a", "b"] ["c", "d"] ["only"]
    (by decide) (by decide) (by decide)
  exact ⟨h.1.1, h.1.2.1, h.1.2.2.1⟩

/-! # C6 — column-name normalisation -/

theorem lookupA_renameList (names : List String) (c : String) :
    lookupA (renameList names) c =
      if c ∈ names ∧ normName c ≠ c then some (normName c) else none := by
  induction names with
  | nil => simp [renameList, lookupA]
  | cons n rest ih =>
    by_cases hn : (normName n != n) = true
    · have hrl : renameList (n :: rest) = (n, normName n) :: renameList rest := by
        simp [renameList, List.filter_cons, hn]
      rw [hrl]
      by_cases hc : n = c
      · subst hc
        have hne : normName n ≠ n := by simpa using hn
        simp [lookupA, hne]
      · have hcc : c ≠ n := fun h => hc h.symm
        simp only [lookupA, if_neg hc, ih, List.mem_cons]
        by_cases hm : c ∈ rest <;> by_cases hch : normName c = c <;>
          simp [hm, hch, hcc]
    · have heq : normName n = n := by simpa using hn
      have hrl : renameList (n :: rest) = renameList rest := by
        simp [renameList, List.filter_cons, hn]
      rw [hrl, ih]
      by_cases hc : c = n
      · subst hc
        simp [heq]
      · simp [hc]

theorem applyRename_renameList (names : List String) (c : String) (hc : c ∈ names) :
    applyRename (renameList names) c = normName c := by
  unfold applyRename
  rw [lookupA_renameList]
  by_cases h : normName c = c
  · simp [h]
  · simp [hc, h]

/-- Counterexample to C6: the claim says a non-alphanumeric character
such as `_` is stripped (so `a_b` would become `ab` and be renamed);
the code keeps `\w` characters — which include the underscore — so
`a_b` is left untouched and never enters the rename map. -/
theorem hopper_C6_counterexample :
    normName "a_b" = "a_b" ∧
    normNameSpec "a_b" = "ab" ∧
    ((DataCleaner.init dfC6 {}).normalizeColumnsStep).self_df.names = ["a_b"] ∧
    ((DataCleaner.init dfC6 {}).normalizeColumnsStep).report.columns_renamed = [] := by
  refine ⟨by decide, by decide, by decide, by decide⟩

/-- C6 (amended): name normalisation rewrites every column name by
removing all characters outside alphanumerics, UNDERSCORE and
whitespace (the code keeps `\w` word characters, so underscores
survive), collapsing internal whitespace runs to a single underscore
and lowercasing; the report's rename map holds exactly the names the
rewrite changed. -/
theorem hopper_C6 (s : DataCleaner) (hrep : s.report.columns_renamed = []) :
    ((s.normalizeColumnsStep).self_df.names = s.self_df.names.map normName) ∧
    ((s.normalizeColumnsStep).report.columns_renamed =
      (s.self_df.names.filter (fun c => normName c != c)).map (fun c => (c, normName c))) := by
  unfold DataCleaner.normalizeColumnsStep
  by_cases hre : (renameList s.self_df.names).isEmpty = true
  · rw [if_pos hre]
    have hnil : renameList s.self_df.names = [] := by
      simpa [List.isEmpty_iff] using hre
    have hall : ∀ c ∈ s.self_df.names, normName c = c := by
      intro c hc
      by_contra hne
      have hfil : c ∈ s.self_df.names.filter (fun c => normName c != c) :=
        List.mem_filter.mpr ⟨hc, by simpa using hne⟩
      have : (c, normName c) ∈ renameList s.self_df.names :=
        List.mem_map.mpr ⟨c, hfil, rfl⟩
      rw [hnil] at this
      exact absurd this (List.not_mem_nil _)
    refine ⟨(map_eq_self_of_mem _ _ hall).symm, ?_⟩
    rw [hrep]
    have : s.self_df.names.filter (fun c => normName c != c) = [] := by
      rw [List.filter_eq_nil_iff]
      intro c hc
      simp [hall c hc]
    rw [this]
    rfl
  · rw [if_neg hre]
    constructor
    · show (⟨s.self_df.cols.map
        (fun c => { c with name := applyRename (renameList s.self_df.names) c.name })⟩ : DF).names
        = s.self_df.names.map normName
      unfold DF.names
      rw [List.map_map, List.map_map]
      refine List.map_congr_left ?_
      intro col hcol
      exact applyRename_renameList s.self_df.names col.name
        (List.mem_map_of_mem (fun c => c.name) hcol)
    · rfl

/-- Witness for C6: a frame with one renamable and one already-canonical
column. -/
theorem hopper_C6_witness :
    ((DataCleaner.init (⟨[⟨"A b", .int64, [.num 1]⟩, ⟨"ok", .int64, [.num 2]⟩]⟩ : DF)
        {}).normalizeColumnsStep).self_df.names = ["a_b", "ok"] ∧
    ((DataCleaner.init (⟨[⟨"A b", .int64, [.num 1]⟩, ⟨"ok", .int64, [.num 2]⟩]⟩ : DF)
        {}).normalizeColumnsStep).report.columns_renamed = [("A b", "a_b")] := by
  have h := hopper_C6
    (DataCleaner.init (⟨[⟨"A b", .int64, [.num 1]⟩, ⟨"ok", .int64, [.num 2]⟩]⟩ : DF) {})
    (by decide)
  constructor
  · rw [h.1]; decide
  · rw [h.2]; decide

/-! # C3 / C4 — type inference -/

/-- The state after a SUCCESSFUL numeric adoption (strictly more than
80% of the cells coerce): the column is overwritten with the coerced
cells under the int64/float64 dtype and the conversion recorded. -/
theorem numericAttempt_state (s : DataCleaner) (col : String) (c : Col)
    (hget : s.self_df.getCol col = some c)
    (hn : (c.cells.map toNumericCell).length ≠ 0)
    (hr : 5 * (c.cells.map toNumericCell).countP (fun x => !x.isna) >
      4 * (c.cells.map toNumericCell).length) :
    s.numericAttempt col =
      (s.inplace (fun d => d.setCol col
        (if (c.cells.map toNumericCell).any (·.isna) then Dtype.float64 else Dtype.int64)
        (c.cells.map toNumericCell))).withReport
        (fun r =>
          { r with types_converted :=
              updAssoc r.types_converted col (c.dtype.toStr ++ " → numeric") }) := by
  unfold DataCleaner.numericAttempt
  rw [hget]
  dsimp only
  rw [if_pos ⟨hn, hr⟩]

/-- The state after a successful date adoption. -/
theorem dateAttempt_state (s : DataCleaner) (col : String) (c : Col)
    (hget : s.self_df.getCol col = some c)
    (hn : (c.cells.map toDatetimeCell).length ≠ 0)
    (hr : 5 * (c.cells.map toDatetimeCell).countP (fun x => !x.isna) >
      4 * (c.cells.map toDatetimeCell).length) :
    s.dateAttempt col =
      (s.inplace (fun d => d.setCol col Dtype.datetime64
        (c.cells.map toDatetimeCell))).withReport
        (fun r =>
          { r with types_converted :=
              updAssoc r.types_converted col (c.dtype.toStr ++ " → datetime") }) := by
  unfold DataCleaner.dateAttempt
  rw [hget]
  dsimp only
  rw [if_pos ⟨hn, hr⟩]

theorem inferColStep_object (s : DataCleaner) (col : String) (c : Col)
    (hget : s.self_df.getCol col = some c) (hobj : c.dtype = .object) :
    s.inferColStep col =
      (if (s.numericAttempt col).config.parse_dates = true
       then (s.numericAttempt col).dateAttempt col
       else s.numericAttempt col) := by
  unfold DataCleaner.inferColStep
  rw [hget]
  dsimp only
  rw [if_pos hobj]

theorem numericAttempt_config (s : DataCleaner) (col : String) :
    (s.numericAttempt col).config = s.config := by
  unfold DataCleaner.numericAttempt
  cases s.self_df.getCol col with
  | none => rfl
  | some c =>
    dsimp only
    split
    · rfl
    · rfl

/-- Counterexample to C3: on the text column `["1","2","3"]` under the
default configuration, the numeric coercion adopts the column as
`int64` — and then the date branch still runs, converts the numeric
values as epoch timestamps, adopts `datetime64[ns]`, and overwrites the
report entry with `int64 → datetime`. -/
theorem hopper_C3_counterexample :
    (((DataCleaner.init dfC3 {}).numericAttempt "c").self_df.getCol "c").map Col.dtype
      = some .int64 ∧
    (((DataCleaner.init dfC3 {}).inferTypesStep).self_df.getCol "c").map Col.dtype
      = some .datetime64 ∧
    ((DataCleaner.init dfC3 {}).inferTypesStep).report.types_converted
      = [("c", "int64 → datetime")] := by
  refine ⟨by decide, by decide, by decide⟩

/-- C3 (amended): for an object-dtype column the date/time coercion is
attempted REGARDLESS of whether the numeric coercion applied; in
particular a column adopted as numeric in the same pass is subsequently
converted to a date/time dtype whenever more than 80% of the coerced
values convert to datetimes (numeric values convert as epoch
timestamps). -/
theorem hopper_C3 (s : DataCleaner) (col : String) (c : Col)
    (hget : s.self_df.getCol col = some c)
    (hobj : c.dtype = .object)
    (hpd : s.config.parse_dates = true)
    (hn : (c.cells.map toNumericCell).length ≠ 0)
    (hnum : 5 * (c.cells.map toNumericCell).countP (fun x => !x.isna) >
      4 * (c.cells.map toNumericCell).length)
    (hdt : 5 * ((c.cells.map toNumericCell).map toDatetimeCell).countP (fun x => !x.isna) >
      4 * ((c.cells.map toNumericCell).map toDatetimeCell).length) :
    ((s.numericAttempt col).self_df.getCol col).map Col.dtype =
      some (if (c.cells.map toNumericCell).any (·.isna) then Dtype.float64 else Dtype.int64) ∧
    ((s.inferColStep col).self_df.getCol col).map Col.dtype = some .datetime64 := by
  have hstate := numericAttempt_state s col c hget hn hnum
  set nd := (if (c.cells.map toNumericCell).any (·.isna) then Dtype.float64 else Dtype.int64)
    with hnd
  have hget1 : (s.numericAttempt col).self_df.getCol col =
      some ⟨col, nd, c.cells.map toNumericCell⟩ := by
    rw [hstate]
    exact getCol_setCol_self s.self_df col nd (c.cells.map toNumericCell) c hget
  constructor
  · rw [hget1]
    rfl
  · rw [inferColStep_object s col c hget hobj]
    rw [if_pos (by rw [numericAttempt_config]; exact hpd)]
    have hstate2 := dateAttempt_state (s.numericAttempt col) col
      ⟨col, nd, c.cells.map toNumericCell⟩ hget1 (by simpa using hn) hdt
    rw [hstate2]
    have hset := getCol_setCol_self (s.numericAttempt col).self_df col Dtype.datetime64
      ((c.cells.map toNumericCell).map toDatetimeCell) _ hget1
    simp only [DataCleaner.inplace, DataCleaner.withReport]
    rw [hset]
    rfl

/-- Witness for C3: the `["1","2","3"]` column. -/
theorem hopper_C3_witness :
    (((DataCleaner.init dfC3 {}).numericAttempt "c").self_df.getCol "c").map Col.dtype
      = some (if (dfC3Cells.map toNumericCell).any (·.isna) then Dtype.float64 else Dtype.int64) ∧
    (((DataCleaner.init dfC3 {}).inferColStep "c").self_df.getCol "c").map Col.dtype
      = some .datetime64 := by
  exact hopper_C3 (DataCleaner.init dfC3 {}) "c" ⟨"c", .object, dfC3Cells⟩
    (by decide) rfl rfl (by decide) (by decide) (by decide)

/-- Counterexample to C4: on a 5-value text column in which EXACTLY 80%
of the values convert to numbers, the code (whose threshold is the
strict `> 0.8`) adopts nothing: the column stays `object` and no
conversion is recorded — the claim's "including exactly 80%" fails. -/
theorem hopper_C4_counterexample :
    (dfC4.cols.map (fun c => (c.cells.map toNumericCell).countP (fun x => !x.isna))
      = [4]) ∧
    dfC4.nrows = 5 ∧
    (((DataCleaner.init dfC4 {}).inferTypesStep).self_df.getCol "c").map Col.dtype
      = some .object ∧
    ((DataCleaner.init dfC4 {}).inferTypesStep).report.types_converted = [] := by
  refine ⟨by decide, by decide, by decide, by decide⟩

/-- C4 (amended): for every text-typed column in which STRICTLY more
than 80% of the values convert to numeric, the numeric-coercion branch
adopts the whole column as numeric (int64 when every cell converted,
float64 otherwise), non-convertible cells become missing, and the
conversion is recorded as `object → numeric` in the report. -/
theorem hopper_C4 (s : DataCleaner) (col : String) (c : Col)
    (hget : s.self_df.getCol col = some c)
    (hobj : c.dtype = .object)
    (hn : (c.cells.map toNumericCell).length ≠ 0)
    (hr : 5 * (c.cells.map toNumericCell).countP (fun x => !x.isna) >
      4 * (c.cells.map toNumericCell).length) :
    ((s.numericAttempt col).self_df.getCol col =
      some ⟨col, (if (c.cells.map toNumericCell).any (·.isna) then Dtype.float64 else Dtype.int64),
        c.cells.map toNumericCell⟩) ∧
    ((if (c.cells.map toNumericCell).any (·.isna) then Dtype.float64 else Dtype.int64).isNumeric
      = true) ∧
    (∀ i v, c.cells.get? i = some (.str v) → parseNumQ v = none →
      (c.cells.map toNumericCell).get? i = some .na) ∧
    lookupA ((s.numericAttempt col).report.types_converted) col = some "object → numeric" := by
  have hstate := numericAttempt_state s col c hget hn hr
  refine ⟨?_, ?_, ?_, ?_⟩
  · rw [hstate]
    exact getCol_setCol_self s.self_df col _ _ c hget
  · split <;> rfl
  · intro i v hi hp
    rw [List.get?_eq_getElem?] at hi ⊢
    rw [List.getElem?_map, hi]
    simp [toNumericCell, hp]
  · rw [hstate]
    show lookupA (updAssoc s.report.types_converted col (c.dtype.toStr ++ " → numeric")) col
      = some "object → numeric"
    rw [hobj]
    exact lookupA_updAssoc_self _ _ _

/-- Witness for C4: a 6-value column with 5 convertible values
(5/6 > 80%), whose one failing cell becomes missing and forces
float64. -/
theorem hopper_C4_witness :
    (((DataCleaner.init dfC4w {}).numericAttempt "c").self_df.getCol "c" =
      some ⟨"c", (if (dfC4wCells.map toNumericCell).any (·.isna) then Dtype.float64 else Dtype.int64),
        dfC4wCells.map toNumericCell⟩) ∧
    lookupA (((DataCleaner.init dfC4w {}).numericAttempt "c").report.types_converted) "c"
      = some "object → numeric" := by
  have h := hopper_C4 (DataCleaner.init dfC4w {}) "c" ⟨"c", .object, dfC4wCells⟩
    (by decide) rfl (by decide) (by decide)
  exact ⟨h.1, h.2.2.2⟩


/-! # C9 — the clean pass never mutates the caller's frame

Every step is a composition of in-place writes (`inplace`, visible to
the caller only under aliasing), rebinds (`rebind`) and report updates
(`withReport`). Since `__init__` copies (`aliased = false`) and nothing
ever re-aliases, the caller's frame survives every step. -/

theorem inplace_aliased (s : DataCleaner) (f : DF → DF) :
    (s.inplace f).aliased = s.aliased := rfl

theorem inplace_caller (s : DataCleaner) (f : DF → DF) (h : s.aliased = false) :
    (s.inplace f).caller = s.caller := by
  simp [DataCleaner.inplace, h]

theorem ite_safe {c : Prop} [Decidable c] {t u : DataCleaner} {cal : DF}
    (ht : t.aliased = false ∧ t.caller = cal) (hu : u.aliased = false ∧ u.caller = cal) :
    ((if c then t else u).aliased = false ∧ (if c then t else u).caller = cal) := by
  split
  · exact ht
  · exact hu

theorem foldl_safe {α : Type} (f : DataCleaner → α → DataCleaner)
    (hf : ∀ s a, s.aliased = false → (f s a).aliased = false ∧ (f s a).caller = s.caller) :
    ∀ (l : List α) (s : DataCleaner), s.aliased = false →
      (l.foldl f s).aliased = false ∧ (l.foldl f s).caller = s.caller := by
  intro l
  induction l with
  | nil => intro s h; exact ⟨h, rfl⟩
  | cons a t ih =>
    intro s h
    have h1 := hf s a h
    have h2 := ih (f s a) h1.1
    exact ⟨h2.1, h2.2.trans h1.2⟩

theorem removeDuplicatesStep_safe (s : DataCleaner) :
    (s.removeDuplicatesStep).aliased = false ∧ (s.removeDuplicatesStep).caller = s.caller :=
  ⟨rfl, rfl⟩

theorem fillColStep_safe (s : DataCleaner) (col : String) (h : s.aliased = false) :
    (s.fillColStep col).aliased = false ∧ (s.fillColStep col).caller = s.caller := by
  have hinp : ∀ (f : DF → DF) (g : CleaningReport → CleaningReport),
      ((s.inplace f).withReport g).aliased = false ∧
      ((s.inplace f).withReport g).caller = s.caller :=
    fun f g => ⟨(inplace_aliased s f).trans h, inplace_caller s f h⟩
  unfold DataCleaner.fillColStep
  cases hg : s.self_df.getCol col with
  | none => exact ⟨h, rfl⟩
  | some c =>
    dsimp only
    split
    · exact ⟨h, rfl⟩
    · split
      · exact ⟨rfl, rfl⟩
      split
      · exact hinp _ _
      split
      · exact hinp _ _
      split
      · split
        · exact hinp _ _
        · exact ⟨h, rfl⟩
      split
      · exact hinp _ _
      split
      · exact hinp _ _
      split
      · exact hinp _ _
      · exact hinp _ _

theorem dropNullColsPhase_safe (s : DataCleaner) (h : s.aliased = false) :
    (s.dropNullColsPhase).aliased = false ∧ (s.dropNullColsPhase).caller = s.caller := by
  unfold DataCleaner.dropNullColsPhase
  dsimp only
  split
  · exact ⟨h, rfl⟩
  · exact ⟨rfl, rfl⟩

theorem handleNullsStep_safe (s : DataCleaner) (h : s.aliased = false) :
    (s.handleNullsStep).aliased = false ∧ (s.handleNullsStep).caller = s.caller := by
  unfold DataCleaner.handleNullsStep
  dsimp only
  have h1 := dropNullColsPhase_safe s h
  have hf := foldl_safe DataCleaner.fillColStep
    (fun t a ht => fillColStep_safe t a ht) ((s.dropNullColsPhase).self_df.names)
    s.dropNullColsPhase h1.1
  exact ⟨hf.1, hf.2.trans h1.2⟩

theorem normalizeColumnsStep_safe (s : DataCleaner) (h : s.aliased = false) :
    (s.normalizeColumnsStep).aliased = false ∧ (s.normalizeColumnsStep).caller = s.caller := by
  unfold DataCleaner.normalizeColumnsStep
  dsimp only
  split
  · exact ⟨h, rfl⟩
  · exact ⟨rfl, rfl⟩

theorem numericAttempt_safe (s : DataCleaner) (col : String) (h : s.aliased = false) :
    (s.numericAttempt col).aliased = false ∧ (s.numericAttempt col).caller = s.caller := by
  unfold DataCleaner.numericAttempt
  cases hg : s.self_df.getCol col with
  | none => exact ⟨h, rfl⟩
  | some c =>
    dsimp only
    split
    · constructor
      · simp only [DataCleaner.withReport]
        exact (inplace_aliased s _).trans h
      · simp only [DataCleaner.withReport]
        exact inplace_caller s _ h
    · exact ⟨h, rfl⟩

theorem dateAttempt_safe (s : DataCleaner) (col : String) (h : s.aliased = false) :
    (s.dateAttempt col).aliased = false ∧ (s.dateAttempt col).caller = s.caller := by
  unfold DataCleaner.dateAttempt
  cases hg : s.self_df.getCol col with
  | none => exact ⟨h, rfl⟩
  | some c =>
    dsimp only
    split
    · constructor
      · simp only [DataCleaner.withReport]
        exact (inplace_aliased s _).trans h
      · simp only [DataCleaner.withReport]
        exact inplace_caller s _ h
    · exact ⟨h, rfl⟩

theorem inferColStep_safe (s : DataCleaner) (col : String) (h : s.aliased = false) :
    (s.inferColStep col).aliased = false ∧ (s.inferColStep col).caller = s.caller := by
  unfold DataCleaner.inferColStep
  cases hg : s.self_df.getCol col with
  | none => exact ⟨h, rfl⟩
  | some c =>
    dsimp only
    split
    · have h1 := numericAttempt_safe s col h
      split
      · have h2 := dateAttempt_safe (s.numericAttempt col) col h1.1
        exact ⟨h2.1, h2.2.trans h1.2⟩
      · exact h1
    · exact ⟨h, rfl⟩

theorem inferTypesStep_safe (s : DataCleaner) (h : s.aliased = false) :
    (s.inferTypesStep).aliased = false ∧ (s.inferTypesStep).caller = s.caller :=
  foldl_safe DataCleaner.inferColStep (fun t a ht => inferColStep_safe t a ht)
    (s.self_df.names) s h

theorem outlierColStep_safe (p : DataCleaner × Nat) (col : String)
    (h : p.1.aliased = false) :
    (DataCleaner.outlierColStep p col).1.aliased = false ∧
    (DataCleaner.outlierColStep p col).1.caller = p.1.caller := by
  unfold DataCleaner.outlierColStep
  split
  · cases hg : p.1.self_df.getCol col with
    | none => exact ⟨h, rfl⟩
    | some c =>
      dsimp only
      split
      · exact ⟨(inplace_aliased p.1 _).trans h, inplace_caller p.1 _ h⟩
      · exact ⟨h, rfl⟩
  · exact ⟨h, rfl⟩

theorem foldl_safe_pair {α : Type} (f : DataCleaner × Nat → α → DataCleaner × Nat)
    (hf : ∀ p a, p.1.aliased = false →
      (f p a).1.aliased = false ∧ (f p a).1.caller = p.1.caller) :
    ∀ (l : List α) (p : DataCleaner × Nat), p.1.aliased = false →
      (l.foldl f p).1.aliased = false ∧ (l.foldl f p).1.caller = p.1.caller := by
  intro l
  induction l with
  | nil => intro p h; exact ⟨h, rfl⟩
  | cons a t ih =>
    intro p h
    have h1 := hf p a h
    have h2 := ih (f p a) h1.1
    exact ⟨h2.1, h2.2.trans h1.2⟩

theorem detectOutliersStep_safe (s : DataCleaner) (h : s.aliased = false) :
    (s.detectOutliersStep).aliased = false ∧ (s.detectOutliersStep).caller = s.caller := by
  unfold DataCleaner.detectOutliersStep
  dsimp only
  exact foldl_safe_pair DataCleaner.outlierColStep
    (fun p a hp => outlierColStep_safe p a hp) _ (s, 0) h

theorem clean_safe (s : DataCleaner) (h : s.aliased = false) :
    (s.clean).aliased = false ∧ (s.clean).caller = s.caller := by
  unfold DataCleaner.clean
  dsimp only
  have H1 : ((if s.config.remove_duplicates = true then s.removeDuplicatesStep else s).aliased
      = false ∧
      (if s.config.remove_duplicates = true then s.removeDuplicatesStep else s).caller
      = s.caller) :=
    ite_safe (removeDuplicatesStep_safe s) ⟨h, rfl⟩
  generalize hT1 :
    (if s.config.remove_duplicates = true then s.removeDuplicatesStep else s) = T1 at H1 ⊢
  have H2 : ((if T1.config.handle_nulls = true then T1.handleNullsStep else T1).aliased
      = false ∧
      (if T1.config.handle_nulls = true then T1.handleNullsStep else T1).caller = s.caller) :=
    ite_safe ⟨(handleNullsStep_safe T1 H1.1).1,
      ((handleNullsStep_safe T1 H1.1).2).trans H1.2⟩ H1
  generalize hT2 :
    (if T1.config.handle_nulls = true then T1.handleNullsStep else T1) = T2 at H2 ⊢
  have H3 : ((if T2.config.normalize_names = true then T2.normalizeColumnsStep else T2).aliased
      = false ∧
      (if T2.config.normalize_names = true then T2.normalizeColumnsStep else T2).caller
      = s.caller) :=
    ite_safe ⟨(normalizeColumnsStep_safe T2 H2.1).1,
      ((normalizeColumnsStep_safe T2 H2.1).2).trans H2.2⟩ H2
  generalize hT3 :
    (if T2.config.normalize_names = true then T2.normalizeColumnsStep else T2) = T3 at H3 ⊢
  have H4 : ((if T3.config.infer_types = true then T3.inferTypesStep else T3).aliased
      = false ∧
      (if T3.config.infer_types = true then T3.inferTypesStep else T3).caller = s.caller) :=
    ite_safe ⟨(inferTypesStep_safe T3 H3.1).1,
      ((inferTypesStep_safe T3 H3.1).2).trans H3.2⟩ H3
  generalize hT4 :
    (if T3.config.infer_types = true then T3.inferTypesStep else T3) = T4 at H4 ⊢
  have H5 : ((if T4.config.detect_outliers = true then T4.detectOutliersStep else T4).aliased
      = false ∧
      (if T4.config.detect_outliers = true then T4.detectOutliersStep else T4).caller
      = s.caller) :=
    ite_safe ⟨(detectOutliersStep_safe T4 H4.1).1,
      ((detectOutliersStep_safe T4 H4.1).2).trans H4.2⟩ H4
  generalize hT5 :
    (if T4.config.detect_outliers = true then T4.detectOutliersStep else T4) = T5 at H5 ⊢
  exact H5

/-- C9: for every input table and every cleaning configuration, the
full clean pass leaves the caller's table object unchanged — the
constructor copies the frame (`aliased = false`) and every in-place
write of every step goes to the copy. -/
theorem hopper_C9 (df : DF) (cfg : CleaningConfig) :
    ((DataCleaner.init df cfg).clean).caller = df :=
  (clean_safe (DataCleaner.init df cfg) rfl).2

/-! # C10 — what `nulls_filled` actually records -/

theorem fillColStep_report_other (s : DataCleaner) (col c : String) (hne : c ≠ col) :
    lookupA ((s.fillColStep col).report.nulls_filled) c =
      lookupA s.report.nulls_filled c := by
  unfold DataCleaner.fillColStep
  cases hg : s.self_df.getCol col with
  | none => rfl
  | some c0 =>
    dsimp only
    split
    · rfl
    · simp only [DataCleaner.withReport, DataCleaner.rebind, DataCleaner.inplace]
      rw [lookupA_updAssoc_ne _ _ _ _ hne]
      (repeat' split) <;> rfl

theorem fillColStep_lookup_self (s : DataCleaner) (col : String) :
    lookupA ((s.fillColStep col).report.nulls_filled) col =
      (if s.self_df.colNullCount col = 0 then lookupA s.report.nulls_filled col
       else some (s.self_df.colNullCount col)) := by
  unfold DataCleaner.fillColStep DF.colNullCount
  cases hg : s.self_df.getCol col with
  | none => simp
  | some c0 =>
    dsimp only
    by_cases hz : c0.nullCount = 0
    · rw [if_pos hz, if_pos hz]
    · rw [if_neg hz, if_neg hz]
      simp only [DataCleaner.withReport, DataCleaner.rebind, DataCleaner.inplace]
      exact lookupA_updAssoc_self _ _ _

theorem fold_fill_lookup_not_mem (names : List String) (s : DataCleaner) (c : String)
    (hc : c ∉ names) :
    lookupA ((names.foldl DataCleaner.fillColStep s).report.nulls_filled) c =
      lookupA s.report.nulls_filled c := by
  induction names generalizing s with
  | nil => rfl
  | cons n rest ih =>
    rw [List.foldl_cons]
    have hcn : c ≠ n := fun he => hc (he ▸ List.mem_cons_self n rest)
    have hcr : c ∉ rest := fun he => hc (List.mem_cons_of_mem n he)
    rw [ih (s.fillColStep n) hcr, fillColStep_report_other s n c hcn]

theorem fold_fill_lookup (names : List String) (s : DataCleaner) (i : Nat)
    (hi : i < names.length) (hnd : names.Nodup)
    (hnone : lookupA s.report.nulls_filled (names.get ⟨i, hi⟩) = none) :
    lookupA ((names.foldl DataCleaner.fillColStep s).report.nulls_filled)
        (names.get ⟨i, hi⟩) =
      (if (((names.take i).foldl DataCleaner.fillColStep s).self_df.colNullCount
            (names.get ⟨i, hi⟩)) = 0
       then none
       else some (((names.take i).foldl DataCleaner.fillColStep s).self_df.colNullCount
            (names.get ⟨i, hi⟩))) := by
  induction names generalizing s i with
  | nil => exact absurd hi (by simp)
  | cons n rest ih =>
    rw [List.foldl_cons]
    cases i with
    | zero =>
      have hn : n ∉ rest := (List.nodup_cons.mp hnd).1
      have hget : (n :: rest).get ⟨0, hi⟩ = n := rfl
      rw [hget] at hnone ⊢
      rw [fold_fill_lookup_not_mem rest (s.fillColStep n) n hn]
      rw [fillColStep_lookup_self s n]
      simp only [List.take_zero, List.foldl_nil]
      by_cases hz : s.self_df.colNullCount n = 0
      · rw [if_pos hz, if_pos hz, hnone]
      · rw [if_neg hz, if_neg hz]
    | succ j =>
      have hn : n ∉ rest := (List.nodup_cons.mp hnd).1
      have hj : j < rest.length := by simpa using hi
      have hgets : (n :: rest).get ⟨j + 1, hi⟩ = rest.get ⟨j, hj⟩ := by
        simp [List.get_cons_succ]
      have hcne : rest.get ⟨j, hj⟩ ≠ n := fun he => hn (he ▸ List.get_mem rest j hj)
      rw [hgets] at hnone ⊢
      have hnone2 : lookupA (s.fillColStep n).report.nulls_filled (rest.get ⟨j, hj⟩)
          = none := by
        rw [fillColStep_report_other s n _ hcne]
        exact hnone
      rw [ih (s.fillColStep n) j hj (List.nodup_cons.mp hnd).2 hnone2]
      simp only [List.take_succ_cons, List.foldl_cons]

/-- C10: after the high-null-column drop, for every remaining column the
`nulls_filled` entry records the column's null count AT THE MOMENT ITS
LOOP ITERATION RAN (the frame state after the earlier columns were
processed), not the number of values actually filled: under
`fill_strategy='ffill'` a leading null remains null yet the count is
recorded, and under `fill_strategy='drop'` the rows are removed rather
than filled yet the count is still recorded. -/
theorem hopper_C10 :
    (∀ (s : DataCleaner) (i : Nat)
      (hi : i < ((s.dropNullColsPhase).self_df.names).length)
      (hnd : ((s.dropNullColsPhase).self_df.names).Nodup)
      (hnone : lookupA (s.dropNullColsPhase).report.nulls_filled
        (((s.dropNullColsPhase).self_df.names).get ⟨i, hi⟩) = none),
      lookupA ((s.handleNullsStep).report.nulls_filled)
          (((s.dropNullColsPhase).self_df.names).get ⟨i, hi⟩) =
        (if ((((s.dropNullColsPhase).self_df.names).take i).foldl DataCleaner.fillColStep
              s.dropNullColsPhase).self_df.colNullCount
              (((s.dropNullColsPhase).self_df.names).get ⟨i, hi⟩) = 0
         then none
         else some (((((s.dropNullColsPhase).self_df.names).take i).foldl
              DataCleaner.fillColStep s.dropNullColsPhase).self_df.colNullCount
              (((s.dropNullColsPhase).self_df.names).get ⟨i, hi⟩)))) ∧
    (((DataCleaner.init dfC10 cfgFfill).handleNullsStep).report.nulls_filled = [("c", 1)] ∧
     (((DataCleaner.init dfC10 cfgFfill).handleNullsStep).self_df.getCol "c").map Col.cells
       = some [.na, .num 1]) ∧
    (((DataCleaner.init dfC10 cfgDrop).handleNullsStep).report.nulls_filled = [("c", 1)] ∧
     ((DataCleaner.init dfC10 cfgDrop).handleNullsStep).self_df.nrows = 1) := by
  refine ⟨?_, ⟨by decide, by decide⟩, ⟨by decide, by decide⟩⟩
  intro s i hi hnd hnone
  unfold DataCleaner.handleNullsStep
  exact fold_fill_lookup ((s.dropNullColsPhase).self_df.names) s.dropNullColsPhase i hi
    hnd hnone

/-- Witness for C10's quantified part: the ffill run on the
leading-null column records `1` for `"c"` even though nothing was
filled. -/
theorem hopper_C10_witness :
    lookupA (((DataCleaner.init dfC10 cfgFfill).handleNullsStep).report.nulls_filled) "c"
      = some 1 := by
  have h := hopper_C10.1 (DataCleaner.init dfC10 cfgFfill) 0 (by decide) (by decide)
    (by decide)
  exact h

end Hopper
